import Mathlib

/-!
Verification development for the `mada-deepfake-detector` face-swap core:
the synthetic face geometry generator (`src/hooks/useMediaPipe.ts`) and the
`FaceSwapEngine` compositor (`src/lib/faceswap/FaceSwapEngine.ts`).

JavaScript numbers are modelled as exact rationals (`ℚ`); the transcendental
primitives of the JS `Math` library (`cos`, `sin`, `sqrt`, `PI`) are passed in
as an abstract `MathPrims` environment, since all verified properties are
independent of their concrete values.  Canvas surfaces are modelled as
row-major RGBA pixel grids with channels on the 0–255 scale used by
`ImageData`; byte quantisation and antialiased sampling are idealised to exact
rational arithmetic and point sampling.
-/

/-- Abstract environment for the JS `Math` primitives used by the code. -/
structure MathPrims where
  cos : ℚ → ℚ
  sin : ℚ → ℚ
  sqrt : ℚ → ℚ
  pi : ℚ

/-- `NormalizedLandmark` from `useMediaPipe.ts` (the optional `visibility`
field is never produced or read by the modelled code and is omitted). -/
structure NormalizedLandmark where
  x : ℚ
  y : ℚ
  z : ℚ
deriving DecidableEq, Repr

/-- The `boundingBox` record of a `FaceDetection`. -/
structure BoundingBox where
  x : ℚ
  y : ℚ
  width : ℚ
  height : ℚ
deriving DecidableEq, Repr

/-- `FaceDetection` from `useMediaPipe.ts`. -/
structure FaceDetection where
  landmarks : List NormalizedLandmark
  boundingBox : BoundingBox
  faceOval : List NormalizedLandmark
  leftEye : List NormalizedLandmark
  rightEye : List NormalizedLandmark
  lips : List NormalizedLandmark
  noseTip : NormalizedLandmark
deriving DecidableEq, Repr

/-- `FACE_OVAL_INDICES` from `useMediaPipe.ts`. -/
def FACE_OVAL_INDICES : List Nat :=
  [10, 338, 297, 332, 284, 251, 389, 356, 454, 323, 361, 288,
   397, 365, 379, 378, 400, 377, 152, 148, 176, 149, 150, 136,
   172, 58, 132, 93, 234, 127, 162, 21, 54, 103, 67, 109]

/-- `LEFT_EYE_INDICES` from `useMediaPipe.ts`. -/
def LEFT_EYE_INDICES : List Nat := [33, 160, 158, 133, 153, 144]

/-- `RIGHT_EYE_INDICES` from `useMediaPipe.ts`. -/
def RIGHT_EYE_INDICES : List Nat := [362, 385, 387, 263, 373, 380]

/-- `LIPS_INDICES` from `useMediaPipe.ts`. -/
def LIPS_INDICES : List Nat := [61, 146, 91, 181, 84, 17, 314, 405, 321, 375, 291]

/-- `NOSE_TIP_INDEX` from `useMediaPipe.ts`. -/
def NOSE_TIP_INDEX : Nat := 1

/-- A sequence of `landmarks[idx] = point` assignments, applied in order
(models the `forEach` overwrite loops of `generateSimpleFaceDetection`). -/
def applyWrites (l : List NormalizedLandmark) (ws : List (Nat × NormalizedLandmark)) :
    List NormalizedLandmark :=
  ws.foldl (fun acc iw => acc.set iw.1 iw.2) l

/-- Default used to model a JS array read `landmarks[i]`; all modelled reads
are at indices below the array length, so the default is never produced. -/
def defaultLandmark : NormalizedLandmark := ⟨0, 0, 0⟩

/-- The fixed constants of `generateSimpleFaceDetection`:
`centerX`, `centerY`, `faceWidth`, `faceHeight`. -/
def genCenterX : ℚ := 0.5

/-- `centerY` constant of `generateSimpleFaceDetection`. -/
def genCenterY : ℚ := 0.45

/-- `faceWidth` constant of `generateSimpleFaceDetection`. -/
def genFaceWidth : ℚ := 0.35

/-- `faceHeight` constant of `generateSimpleFaceDetection`. -/
def genFaceHeight : ℚ := 0.45

/-- The 36 `ovalPoints` of `generateSimpleFaceDetection` (cos/sin sampled at
36 equally spaced angles around the assumed face ellipse). -/
def generatorOvalPoints (prims : MathPrims) : List NormalizedLandmark :=
  (List.range 36).map (fun (i : ℕ) =>
    let angle := ((i : ℚ) / (36 : ℚ)) * prims.pi * 2
    ⟨genCenterX + prims.cos angle * genFaceWidth * 0.4,
     genCenterY + prims.sin angle * genFaceHeight * 0.45, 0⟩)

/-- The 468 placeholder landmarks (sinusoidal filler pattern) of
`generateSimpleFaceDetection`, before the specific overwrites. -/
def generatorFillLandmarks (prims : MathPrims) : List NormalizedLandmark :=
  (List.range 468).map (fun (i : ℕ) =>
    ⟨genCenterX + prims.sin ((i : ℚ) * 0.1) * 0.1,
     genCenterY + prims.cos ((i : ℚ) * 0.1) * 0.1, 0⟩)

/-- The landmark array of `generateSimpleFaceDetection` after all the
index-subset overwrites (nose tip, eyes, lips, face oval), in source order. -/
def generatorLandmarks (prims : MathPrims) : List NormalizedLandmark :=
  let landmarks := (generatorFillLandmarks prims).set 1
    ⟨genCenterX, genCenterY + 0.05, 0⟩
  let leftEyeX := genCenterX - 0.08
  let leftEyeY := genCenterY - 0.05
  let landmarks := applyWrites landmarks
    (LEFT_EYE_INDICES.enum.map (fun iw =>
      (iw.2, ⟨leftEyeX + ((iw.1 : ℚ) - 3) * 0.01,
              leftEyeY + prims.sin (iw.1 : ℚ) * 0.01, 0⟩)))
  let rightEyeX := genCenterX + 0.08
  let rightEyeY := genCenterY - 0.05
  let landmarks := applyWrites landmarks
    (RIGHT_EYE_INDICES.enum.map (fun iw =>
      (iw.2, ⟨rightEyeX + ((iw.1 : ℚ) - 3) * 0.01,
              rightEyeY + prims.sin (iw.1 : ℚ) * 0.01, 0⟩)))
  let lipsY := genCenterY + 0.15
  let landmarks := applyWrites landmarks
    (LIPS_INDICES.enum.map (fun iw =>
      (iw.2, ⟨genCenterX + ((iw.1 : ℚ) - 5) * 0.015,
              lipsY + prims.sin ((iw.1 : ℚ) * 0.5) * 0.01, 0⟩)))
  applyWrites landmarks
    (FACE_OVAL_INDICES.enum.map (fun iw =>
      (iw.2, (generatorOvalPoints prims).getD
        (iw.1 % (generatorOvalPoints prims).length) defaultLandmark)))

/-- `generateSimpleFaceDetection` from `useMediaPipe.ts`, translated
statement-by-statement.  The trigonometric calls go through the abstract
`MathPrims` environment. -/
def generateSimpleFaceDetection (prims : MathPrims) : FaceDetection :=
  let landmarks := generatorLandmarks prims
  { landmarks := landmarks
    boundingBox :=
      ⟨genCenterX - genFaceWidth / 2, genCenterY - genFaceHeight / 2,
       genFaceWidth, genFaceHeight⟩
    faceOval := FACE_OVAL_INDICES.map (fun i => landmarks.getD i defaultLandmark)
    leftEye := LEFT_EYE_INDICES.map (fun i => landmarks.getD i defaultLandmark)
    rightEye := RIGHT_EYE_INDICES.map (fun i => landmarks.getD i defaultLandmark)
    lips := LIPS_INDICES.map (fun i => landmarks.getD i defaultLandmark)
    noseTip := landmarks.getD NOSE_TIP_INDEX defaultLandmark }

/-- Modelled from the spec (§3): the axis-aligned bounding rectangle of an
ellipse with center `(0.5, 0.45)`, half-width `0.35` and half-height `0.45`,
as claim C3 reads the words of the spec.  Used only to compare against the
code-derived `boundingBox`. -/
def specAssumedEllipseRect : BoundingBox :=
  ⟨0.5 - 0.35, 0.45 - 0.45, 0.35 * 2, 0.45 * 2⟩

/-- Concrete `MathPrims` instantiation used by witnesses and counterexamples. -/
def prims0 : MathPrims := ⟨fun q => q, fun q => q, fun q => q, 0⟩

/-- One in-flight `loadTargetFace` call: the `Image` element (identified by a
token) with its `src` URL, whose `onload`/`onerror` handlers have been
attached but have not fired yet. -/
structure PendingLoad where
  token : Nat
  url : String
deriving DecidableEq, Repr

/-- The mutable state of a `FaceSwapEngine` relevant to target loading:
`targetFaceImage` (the token of the decoded image currently held, or none)
plus the set of in-flight loads. -/
structure LoadState where
  target : Option Nat
  pending : List PendingLoad
deriving DecidableEq, Repr

/-- Settlement of the promise returned by `loadTargetFace`. -/
inductive LoadOutcome where
  | resolved
  | rejected (msg : String)
deriving DecidableEq, Repr

/-- Events in the load lifecycle: `loadTargetFace` starting a decode,
the browser firing `onload` or `onerror` for a pending image, and
`clearTargetFace`. -/
inductive LoadEvent where
  | startLoad (token : Nat) (url : String)
  | decodeOk (token : Nat)
  | decodeFail (token : Nat)
  | clearTarget
deriving DecidableEq, Repr

/-- State transition of `FaceSwapEngine` for one load-lifecycle event,
returning the new state and the promise settlement (if any) produced by the
event.  Translated from `loadTargetFace` (the `onload` handler does
`this.targetFaceImage = img; resolve()` unconditionally; the `onerror`
handler rejects with `Failed to load face image: <url>` and touches no
state) and from `clearTargetFace` (`this.targetFaceImage = null`). -/
def loadStep (s : LoadState) (e : LoadEvent) : LoadState × Option LoadOutcome :=
  match e with
  | .startLoad tok url => ({ s with pending := s.pending ++ [⟨tok, url⟩] }, none)
  | .decodeOk tok =>
    match s.pending.find? (fun q => q.token == tok) with
    | some _ =>
      ({ target := some tok, pending := s.pending.eraseP (fun q => q.token == tok) },
       some .resolved)
    | none => (s, none)
  | .decodeFail tok =>
    match s.pending.find? (fun q => q.token == tok) with
    | some p =>
      ({ s with pending := s.pending.eraseP (fun q => q.token == tok) },
       some (.rejected ("Failed to load face image: " ++ p.url)))
    | none => (s, none)
  | .clearTarget => ({ s with target := none }, none)

/-- Run a sequence of load-lifecycle events from a state. -/
def runLoads (s : LoadState) (es : List LoadEvent) : LoadState :=
  es.foldl (fun acc e => (loadStep acc e).1) s

/-- `hasTargetFace` from `FaceSwapEngine.ts`: `targetFaceImage !== null`. -/
def hasTargetFace (s : LoadState) : Bool :=
  s.target.isSome

/-- The initial engine state: no target loaded, no load in flight. -/
def initialLoadState : LoadState := ⟨none, []⟩

/-- One RGBA pixel as exposed by `ImageData`: channels on the 0–255 scale,
idealised to exact rationals (byte quantisation abstracted away). -/
structure Pixel where
  r : ℚ
  g : ℚ
  b : ℚ
  a : ℚ
deriving DecidableEq, Repr

/-- Transparent black, the value of cleared canvas pixels and of
out-of-bounds `getImageData` reads. -/
def clearPixel : Pixel := ⟨0, 0, 0, 0⟩

/-- A bitmap surface (canvas, video frame or decoded image): dimensions plus
a row-major pixel array of length `width * height`. -/
structure Surface where
  width : Nat
  height : Nat
  data : List Pixel
deriving DecidableEq, Repr

/-- Build a `width × height` surface from a per-pixel function. -/
def mkSurface (w h : Nat) (f : Nat → Nat → Pixel) : Surface :=
  ⟨w, h, (List.range (w * h)).map (fun i => f (i % w) (i / w))⟩

/-- Read one pixel; out-of-bounds reads yield transparent black, matching
`getImageData` semantics on out-of-canvas regions. -/
def getPixel (s : Surface) (x y : Nat) : Pixel :=
  if x < s.width ∧ y < s.height then s.data.getD (y * s.width + x) clearPixel
  else clearPixel

/-- Pixel read at possibly negative coordinates (used for the 50×50 sample
block, whose origin can be negative on small frames). -/
def getPixelI (s : Surface) (x y : Int) : Pixel :=
  if 0 ≤ x ∧ 0 ≤ y then getPixel s x.toNat y.toNat else clearPixel

/-- `FaceSwapOptions` from `FaceSwapEngine.ts`. -/
structure FaceSwapOptions where
  blendAmount : ℚ
  featherAmount : ℚ
  colorCorrection : Bool
deriving DecidableEq, Repr

/-- A `Partial<FaceSwapOptions>` argument: absent fields are `none`. -/
structure OptionsPatch where
  blendAmount : Option ℚ
  featherAmount : Option ℚ
  colorCorrection : Option Bool
deriving DecidableEq, Repr

/-- The defaults installed by the `FaceSwapEngine` constructor. -/
def defaultFaceSwapOptions : FaceSwapOptions := ⟨0.95, 20, false⟩

/-- `setOptions` from `FaceSwapEngine.ts`: spread-merge of the patch into the
current options (fields absent from the patch are left unchanged). -/
def setOptions (opts : FaceSwapOptions) (patch : OptionsPatch) : FaceSwapOptions :=
  ⟨patch.blendAmount.getD opts.blendAmount,
   patch.featherAmount.getD opts.featherAmount,
   patch.colorCorrection.getD opts.colorCorrection⟩

/-- `drawImage(src, 0, 0, w, h)` onto a fresh fully-opaque-destination pass:
the source bitmap scaled to `w × h` (point sampling idealisation).  This is
both the pass-through copy of the video frame into the output canvas and the
temp-canvas copy used by color correction. -/
def passThroughPixel (video : Surface) (w h : Nat) (x y : Nat) : Pixel :=
  getPixel video (x * video.width / w) (y * video.height / h)

/-- The scaled copy itself. -/
def passThroughCopy (video : Surface) (w h : Nat) : Surface :=
  mkSurface w h (passThroughPixel video w h)

/-- Source-over alpha compositing of one pixel (`src` over `dst`), the
default `globalCompositeOperation` used for the final
`outCtx.drawImage(this.canvas, 0, 0)`.  A fully transparent source leaves
the destination unchanged. -/
def over (src dst : Pixel) : Pixel :=
  if src.a = 0 then dst
  else
    let aS := src.a / 255
    let aD := dst.a / 255
    let aO := aS + aD * (1 - aS)
    ⟨(src.r * aS + dst.r * aD * (1 - aS)) / aO,
     (src.g * aS + dst.g * aD * (1 - aS)) / aO,
     (src.b * aS + dst.b * aD * (1 - aS)) / aO,
     255 * aO⟩

/-- The aspect-fitted draw rectangle for the target image. -/
structure DrawRect where
  x : ℚ
  y : ℚ
  w : ℚ
  h : ℚ
deriving DecidableEq, Repr

/-- The aspect-fitted draw rectangle of the overlay phase: a rectangle 10%
larger than the padded face rectangle, shrunk on one axis to preserve the
aspect ratio of the target image ("contain" fit) and re-centered on that axis. -/
def overlayDrawRect (tgt : Surface) (faceBox : BoundingBox)
    (w h : Nat) : DrawRect :=
  let padding : ℚ := 0.15
  let faceX := (faceBox.x - faceBox.width * padding) * w
  let faceY := (faceBox.y - faceBox.height * padding) * h
  let faceW := faceBox.width * (1 + padding * 2) * w
  let faceH := faceBox.height * (1 + padding * 2) * h
  let targetAspect := (tgt.width : ℚ) / (tgt.height : ℚ)
  let sourceAspect := faceW / faceH
  let drawW := faceW * 1.1
  let drawH := faceH * 1.1
  let drawX := faceX - faceW * 0.05
  let drawY := faceY - faceH * 0.05
  if targetAspect > sourceAspect then
    let dH := drawW / targetAspect
    ⟨drawX, faceY + (faceH - dH) / 2, drawW, dH⟩
  else
    let dW := drawH * targetAspect
    ⟨faceX + (faceW - dW) / 2, drawY, dW, drawH⟩

/-- One scratch-canvas pixel of the clip-and-draw overlay phase of
`processFrame`: clear the scratch canvas, set the elliptical clip centered
on the padded face rectangle (radii 42% / 48% of its width/height), and draw
the target image aspect-fitted at `globalAlpha = blendAmount`.  Pixels
outside the clip or outside the draw rectangle stay cleared. -/
def overlayScratchPixel (blendAmount : ℚ) (tgt : Surface) (faceBox : BoundingBox)
    (w h : Nat) (px py : Nat) : Pixel :=
  let padding : ℚ := 0.15
  let faceX := (faceBox.x - faceBox.width * padding) * w
  let faceY := (faceBox.y - faceBox.height * padding) * h
  let faceW := faceBox.width * (1 + padding * 2) * w
  let faceH := faceBox.height * (1 + padding * 2) * h
  let centerX := faceX + faceW / 2
  let centerY := faceY + faceH / 2
  let rx := faceW * 0.42
  let ry := faceH * 0.48
  let rect := overlayDrawRect tgt faceBox w h
  let xq : ℚ := px
  let yq : ℚ := py
  if ((xq - centerX) / rx) * ((xq - centerX) / rx) +
       ((yq - centerY) / ry) * ((yq - centerY) / ry) ≤ 1 ∧
     rect.x ≤ xq ∧ xq < rect.x + rect.w ∧ rect.y ≤ yq ∧ yq < rect.y + rect.h then
    let u := (xq - rect.x) / rect.w * tgt.width
    let v := (yq - rect.y) / rect.h * tgt.height
    let p := getPixel tgt (min (tgt.width - 1) (Int.toNat (Rat.floor u)))
      (min (tgt.height - 1) (Int.toNat (Rat.floor v)))
    { p with a := p.a * blendAmount }
  else clearPixel

/-- The scratch canvas after the clip-and-draw phase. -/
def overlayScratch (blendAmount : ℚ) (tgt : Surface) (faceBox : BoundingBox)
    (w h : Nat) : Surface :=
  mkSurface w h (overlayScratchPixel blendAmount tgt faceBox w h)

/-- The fixed 50×50 sample block centered in a `w × h` frame, row-major, as
read by `getImageData(width/2 - 25, height/2 - 25, 50, 50)` (out-of-canvas
pixels are transparent black). -/
def cropBlock (s : Surface) (w h : Nat) : List Pixel :=
  let cx : Int := Int.tdiv ((w : Int) - 50) 2
  let cy : Int := Int.tdiv ((h : Int) - 50) 2
  (List.range 2500).map (fun j =>
    getPixelI s (cx + ((j % 50 : Nat) : Int)) (cy + ((j / 50 : Nat) : Int)))

/-- One pixel of the color-correction pass: non-transparent pixels have
each channel scaled by its clamped ratio and capped at 255; transparent
pixels are untouched. -/
def colorCorrectPixel (rAdj gAdj bAdj : ℚ) (scratch : Surface)
    (x y : Nat) : Pixel :=
  let p := getPixel scratch x y
  if 0 < p.a then
    ⟨min 255 (p.r * rAdj), min 255 (p.g * gAdj), min 255 (p.b * bAdj), p.a⟩
  else p

/-- `applyColorCorrection` from `FaceSwapEngine.ts`.  `readbackOk = false`
models `getImageData` throwing (e.g. a cross-origin taint): the `catch`
leaves the scratch canvas untouched.  Otherwise: average R/G/B over the
centered 50×50 block of the (re-drawn) source frame and of the scratch
canvas, form per-channel ratios with a zero mean treated as 1, clamp them to
`[0.5, 1.5]` and scale every non-transparent scratch pixel, capping each
channel at 255. -/
def applyColorCorrection (readbackOk : Bool) (sourceVideo : Surface)
    (scratch : Surface) (w h : Nat) : Surface :=
  if readbackOk then
    let sourceData := cropBlock (passThroughCopy sourceVideo w h) w h
    let targetData := cropBlock scratch w h
    let count : ℚ := sourceData.length
    let srcR := sourceData.foldl (fun acc p => acc + p.r) 0 / count
    let srcG := sourceData.foldl (fun acc p => acc + p.g) 0 / count
    let srcB := sourceData.foldl (fun acc p => acc + p.b) 0 / count
    let tgtR := targetData.foldl (fun acc p => acc + p.r) 0 / count
    let tgtG := targetData.foldl (fun acc p => acc + p.g) 0 / count
    let tgtB := targetData.foldl (fun acc p => acc + p.b) 0 / count
    if 0 < count then
      mkSurface w h (colorCorrectPixel
        (min 1.5 (max 0.5 (srcR / (if tgtR = 0 then 1 else tgtR))))
        (min 1.5 (max 0.5 (srcG / (if tgtG = 0 then 1 else tgtG))))
        (min 1.5 (max 0.5 (srcB / (if tgtB = 0 then 1 else tgtB)))) scratch)
    else scratch
  else scratch

/-- The x-coordinate of the face-oval centroid in pixel space (the `centerX`
accumulation loop of `applyFeathering`, divided by the point count). -/
def ovalCentroidX (oval : List NormalizedLandmark) (w : Nat) : ℚ :=
  oval.foldl (fun acc p => acc + p.x * (w : ℚ)) 0 / (oval.length : ℚ)

/-- The y-coordinate of the face-oval centroid in pixel space. -/
def ovalCentroidY (oval : List NormalizedLandmark) (h : Nat) : ℚ :=
  oval.foldl (fun acc p => acc + p.y * (h : ℚ)) 0 / (oval.length : ℚ)

/-- The `maxDist` loop of `applyFeathering`: maximum over the oval points of
their distance from the centroid, folded from 0. -/
def ovalMaxDist (prims : MathPrims) (oval : List NormalizedLandmark)
    (w h : Nat) (cx cy : ℚ) : ℚ :=
  oval.foldl (fun m p =>
    max m (prims.sqrt ((p.x * (w : ℚ) - cx) * (p.x * (w : ℚ) - cx) +
      (p.y * (h : ℚ) - cy) * (p.y * (h : ℚ) - cy)))) 0

/-- One pixel of the feathering pass, given the centroid `(cx, cy)` and the
threshold `featherStart = maxDist - feather`: a pixel with positive alpha
whose distance from the centroid exceeds the threshold has its alpha scaled
by `1 - (dist - featherStart) / feather` (floored at 0), the result clamped
to `[0, 255]`; all other pixels are untouched. -/
def featherPixel (prims : MathPrims) (feather cx cy featherStart : ℚ)
    (s : Surface) (x y : Nat) : Pixel :=
  let p := getPixel s x y
  if 0 < p.a then
    let dx := (x : ℚ) - cx
    let dy := (y : ℚ) - cy
    let dist := prims.sqrt (dx * dx + dy * dy)
    if featherStart < dist then
      { p with
        a := max 0 (min 255 (p.a * max 0 (1 - (dist - featherStart) / feather))) }
    else p
  else p

/-- `applyFeathering` from `FaceSwapEngine.ts`: skipped entirely when
`featherAmount ≤ 0` or when the face oval is empty; otherwise every pixel
with positive alpha whose distance from the oval centroid exceeds
`maxDist - feather` has its alpha scaled by `1 - (dist - featherStart) /
feather` (floored at 0) and clamped to `[0, 255]`. -/
def applyFeathering (prims : MathPrims) (feather : ℚ) (face : FaceDetection)
    (w h : Nat) (s : Surface) : Surface :=
  if feather ≤ 0 then s
  else
    let oval := face.faceOval
    if oval.length = 0 then s
    else
      let cx := ovalCentroidX oval w
      let cy := ovalCentroidY oval h
      let maxDist := ovalMaxDist prims oval w h cx cy
      mkSurface w h (featherPixel prims feather cx cy (maxDist - feather) s)

/-- One pixel of the final composite: the scratch overlay drawn over the
pass-through base with source-over blending. -/
def compositePixel (scratch base : Surface) (x y : Nat) : Pixel :=
  over (getPixel scratch x y) (getPixel base x y)

/-- `processFrame` from `FaceSwapEngine.ts`: draw the source frame into the
output canvas at its native dimensions; if a face and a target are present,
build the clipped/blended scratch overlay, optionally color-correct it,
feather it, and composite it over the output with source-over blending. -/
def processFrame (prims : MathPrims) (opts : FaceSwapOptions)
    (targetFaceImage : Option Surface) (readbackOk : Bool)
    (sourceVideo : Surface) (sourceFace : Option FaceDetection)
    (w h : Nat) : Surface :=
  let base := passThroughCopy sourceVideo w h
  match sourceFace, targetFaceImage with
  | some face, some tgt =>
    let scratch := overlayScratch opts.blendAmount tgt face.boundingBox w h
    let scratch2 :=
      if opts.colorCorrection then applyColorCorrection readbackOk sourceVideo scratch w h
      else scratch
    let scratch3 := applyFeathering prims opts.featherAmount face w h scratch2
    mkSurface w h (compositePixel scratch3 base)
  | _, _ => base

/-- A surface all of whose pixel reads are fully transparent. -/
def AlphaZero (s : Surface) : Prop := ∀ x y, (getPixel s x y).a = 0

/-- Modelled from the words of the spec (§4.2 step 7): the centroid x-coordinate
as the mean of the pixel-space x-coordinates of the face-outline points. -/
def specOvalCx (oval : List NormalizedLandmark) (w : Nat) : ℚ :=
  ((oval.map (fun p => p.x * (w : ℚ))).sum) / (oval.length : ℚ)

/-- Modelled from the words of the spec: the centroid y-coordinate as the mean of
the pixel-space y-coordinates of the outline points. -/
def specOvalCy (oval : List NormalizedLandmark) (h : Nat) : ℚ :=
  ((oval.map (fun p => p.y * (h : ℚ))).sum) / (oval.length : ℚ)

/-- Modelled from the words of the spec (§4.2 step 7), continued: the feathered
pixel value using the mean-centroid and the linear `(maxDist - dist) /
feather` falloff. -/
def specFeatheredPixel (prims : MathPrims) (feather : ℚ)
    (oval : List NormalizedLandmark) (w h : Nat) (s : Surface)
    (x y : Nat) : Pixel :=
  let cx := specOvalCx oval w
  let cy := specOvalCy oval h
  let m := ovalMaxDist prims oval w h cx cy
  let p := getPixel s x y
  let dist := prims.sqrt (((x : ℚ) - cx) * ((x : ℚ) - cx) +
    ((y : ℚ) - cy) * ((y : ℚ) - cy))
  if 0 < p.a ∧ m - feather < dist then
    { p with a := max 0 (min 255 (p.a * max 0 ((m - dist) / feather))) }
  else p

/-- Modelled from the words of the spec (§4.2 step 6): the color-corrected value
of one scratch pixel — per-channel means over the 2500 samples of the
centered 50×50 blocks of the source frame and of the scratch surface,
per-channel ratios source-mean / scratch-mean with a zero denominator
treated as 1, clamped to `[0.5, 1.5]`, applied to every non-transparent
pixel with each channel capped at 255. -/
def specColorCorrectedPixel (video scratch : Surface) (w h x y : Nat) : Pixel :=
  let srcBlock := cropBlock (passThroughCopy video w h) w h
  let tgtBlock := cropBlock scratch w h
  let srcR := ((srcBlock.map (fun p => p.r)).sum) / 2500
  let srcG := ((srcBlock.map (fun p => p.g)).sum) / 2500
  let srcB := ((srcBlock.map (fun p => p.b)).sum) / 2500
  let tgtR := ((tgtBlock.map (fun p => p.r)).sum) / 2500
  let tgtG := ((tgtBlock.map (fun p => p.g)).sum) / 2500
  let tgtB := ((tgtBlock.map (fun p => p.b)).sum) / 2500
  let rAdj := min 1.5 (max 0.5 (srcR / (if tgtR = 0 then 1 else tgtR)))
  let gAdj := min 1.5 (max 0.5 (srcG / (if tgtG = 0 then 1 else tgtG)))
  let bAdj := min 1.5 (max 0.5 (srcB / (if tgtB = 0 then 1 else tgtB)))
  let p := getPixel scratch x y
  if 0 < p.a then
    ⟨min 255 (p.r * rAdj), min 255 (p.g * gAdj), min 255 (p.b * bAdj), p.a⟩
  else p

/-- A 1×1 opaque black video frame (concrete fixture). -/
def video0 : Surface := ⟨1, 1, [⟨0, 0, 0, 255⟩]⟩

/-- A 1×1 opaque red target image (concrete fixture). -/
def target0 : Surface := ⟨1, 1, [⟨255, 0, 0, 255⟩]⟩

/-- A normalized full-frame bounding box (concrete fixture). -/
def box0 : BoundingBox := ⟨0, 0, 1, 1⟩

/-- A face geometry whose derived views are all empty (concrete fixture for
claim C2). -/
def faceCx : FaceDetection := ⟨[], box0, [], [], [], [], ⟨0, 0, 0⟩⟩

/-- A face geometry with a one-point face oval (concrete fixture). -/
def faceF : FaceDetection := ⟨[], box0, [⟨0, 0, 0⟩], [], [], [], ⟨0, 0, 0⟩⟩

/-- A 1×1 opaque black scratch surface (concrete fixture). -/
def surfF : Surface := ⟨1, 1, [⟨0, 0, 0, 255⟩]⟩

theorem length_applyWrites (ws : List (Nat × NormalizedLandmark))
    (l : List NormalizedLandmark) : (applyWrites l ws).length = l.length := by
  induction ws generalizing l with
  | nil => rfl
  | cons head tail ih =>
    show (applyWrites (l.set head.1 head.2) tail).length = l.length
    rw [ih, List.length_set]

theorem getD_mem {l : List NormalizedLandmark} {i : Nat} (h : i < l.length)
    (d : NormalizedLandmark) : l.getD i d ∈ l := by
  rw [List.getD_eq_getElem l d h]
  exact List.getElem_mem h

theorem generatorLandmarks_length (prims : MathPrims) :
    (generatorLandmarks prims).length = 468 := by
  show (applyWrites (applyWrites (applyWrites (applyWrites
    ((generatorFillLandmarks prims).set 1 _) _) _) _) _).length = 468
  rw [length_applyWrites, length_applyWrites, length_applyWrites, length_applyWrites,
    List.length_set, generatorFillLandmarks, List.length_map, List.length_range]

theorem generator_landmarks_length (prims : MathPrims) :
    (generateSimpleFaceDetection prims).landmarks.length = 468 := by
  simp only [generateSimpleFaceDetection]
  exact generatorLandmarks_length prims

theorem mem_of_view {lm : List NormalizedLandmark} {idx : List Nat}
    (hlen : lm.length = 468) (hidx : ∀ i ∈ idx, i < 468) :
    ∀ p ∈ idx.map (fun i => lm.getD i defaultLandmark), p ∈ lm := by
  intro p hp
  obtain ⟨i, hi, rfl⟩ := List.mem_map.mp hp
  exact getD_mem (by rw [hlen]; exact hidx i hi) _

/-- Claim C3 (amended): for every call, the geometry generator returns a
`boundingBox` equal to the fixed normalized rectangle `{x: 0.325, y: 0.225,
width: 0.35, height: 0.45}` — i.e. the axis-aligned rectangle centered at
`(0.5, 0.45)` whose full width and height are the constants `0.35` and
`0.45` — independent of the landmark extents and of the trigonometric
primitives. -/
theorem boundingBox_from_constants (prims : MathPrims) :
    (generateSimpleFaceDetection prims).boundingBox = ⟨0.325, 0.225, 0.35, 0.45⟩ := by
  simp only [generateSimpleFaceDetection, genCenterX, genCenterY, genFaceWidth,
    genFaceHeight, BoundingBox.mk.injEq]
  norm_num

/-- Claim C3 counterexample: the returned `boundingBox` is *not* the
axis-aligned bounding rectangle of an ellipse with center `(0.5, 0.45)`,
half-width `0.35` and half-height `0.45` (that rectangle would be
`{x: 0.15, y: 0, width: 0.7, height: 0.9}`): the code halves the constants,
so the box has width `0.35`, not `0.7`. -/
theorem boundingBox_ne_specEllipseRect :
    (generateSimpleFaceDetection prims0).boundingBox ≠ specAssumedEllipseRect := by
  simp only [generateSimpleFaceDetection, specAssumedEllipseRect, genCenterX,
    genCenterY, genFaceWidth, genFaceHeight, BoundingBox.mk.injEq]
  norm_num

/-- Claim C6: every call of the synthetic face geometry generator returns a
`landmarks` sequence of length exactly 468, and any two calls (with the same
`Math` primitives and no intervening state change — the generator reads no
mutable state at all) return bit-identical `FaceGeometry` values. -/
theorem generator_deterministic_468 (prims : MathPrims) :
    (generateSimpleFaceDetection prims).landmarks.length = 468 ∧
    ∀ g₁ g₂ : FaceDetection, g₁ = generateSimpleFaceDetection prims →
      g₂ = generateSimpleFaceDetection prims → g₁ = g₂ := by
  refine ⟨generator_landmarks_length prims, ?_⟩
  intro g₁ g₂ h₁ h₂
  rw [h₁, h₂]

theorem generator_deterministic_468_witness :
    (generateSimpleFaceDetection prims0).landmarks.length = 468 ∧
    generateSimpleFaceDetection prims0 = generateSimpleFaceDetection prims0 :=
  ⟨(generator_deterministic_468 prims0).1,
   (generator_deterministic_468 prims0).2 _ _ rfl rfl⟩

/-- Claim C10: every index in the fixed landmark index convention lies in
`[0, 468)` (all 36 face-oval, 6 + 6 eye, 11 lips indices and the nose-tip
index), so every landmark read and overwrite performed by the generator is in
bounds, and the derived views consist solely of elements of the 468-entry
landmark array (no out-of-bounds/undefined entry). -/
theorem landmark_indices_in_bounds (prims : MathPrims) :
    FACE_OVAL_INDICES.length = 36 ∧ LEFT_EYE_INDICES.length = 6 ∧
    RIGHT_EYE_INDICES.length = 6 ∧ LIPS_INDICES.length = 11 ∧
    (∀ i ∈ FACE_OVAL_INDICES, i < 468) ∧
    (∀ i ∈ LEFT_EYE_INDICES, i < 468) ∧
    (∀ i ∈ RIGHT_EYE_INDICES, i < 468) ∧
    (∀ i ∈ LIPS_INDICES, i < 468) ∧
    NOSE_TIP_INDEX < 468 ∧
    (∀ p ∈ (generateSimpleFaceDetection prims).faceOval,
      p ∈ (generateSimpleFaceDetection prims).landmarks) ∧
    (∀ p ∈ (generateSimpleFaceDetection prims).leftEye,
      p ∈ (generateSimpleFaceDetection prims).landmarks) ∧
    (∀ p ∈ (generateSimpleFaceDetection prims).rightEye,
      p ∈ (generateSimpleFaceDetection prims).landmarks) ∧
    (∀ p ∈ (generateSimpleFaceDetection prims).lips,
      p ∈ (generateSimpleFaceDetection prims).landmarks) ∧
    (generateSimpleFaceDetection prims).noseTip ∈
      (generateSimpleFaceDetection prims).landmarks := by
  have hlen := generatorLandmarks_length prims
  simp only [generateSimpleFaceDetection]
  exact ⟨by decide, by decide, by decide, by decide, by decide, by decide,
    by decide, by decide, by decide,
    mem_of_view hlen (by decide), mem_of_view hlen (by decide),
    mem_of_view hlen (by decide), mem_of_view hlen (by decide),
    getD_mem (by rw [hlen]; decide) _⟩

theorem landmark_indices_in_bounds_witness :
    10 ∈ FACE_OVAL_INDICES ∧ 10 < 468 :=
  ⟨by decide, (landmark_indices_in_bounds prims0).2.2.2.2.1 10 (by decide)⟩

/-- Claim C1 counterexample: in the scenario «load A, load B, `clearTargetFace`,
then the decode of B resolves», `hasTargetFace` returns `true`, not `false`: the
`onload` handler installed by `loadTargetFace` assigns `targetFaceImage`
unconditionally, so a load that was cleared while in flight still overwrites
the cleared target when its decode completes. -/
theorem clearThenStaleResolve_hasTarget_true :
    hasTargetFace (runLoads initialLoadState
      [.startLoad 0 "faceA.png", .startLoad 1 "faceB.png",
       .clearTarget, .decodeOk 1]) = true := by
  decide

/-- Claim C1 (amended): `clearTargetFace` and superseding loads do *not* void
an in-flight load: whenever the decode of a pending load resolves — in any state
reachable by any event sequence, including one in which `clearTargetFace` or
further `loadTargetFace` calls happened after the load started — its image
becomes the current target, so `hasTargetFace` returns `true` (last
*resolution* wins, not last call). -/
theorem staleLoadResolutionOverwrites (es : List LoadEvent) (tok : Nat)
    (p : PendingLoad)
    (h : (runLoads initialLoadState es).pending.find? (fun q => q.token == tok) =
      some p) :
    (loadStep (runLoads initialLoadState es) (.decodeOk tok)).1.target = some tok ∧
    hasTargetFace (loadStep (runLoads initialLoadState es) (.decodeOk tok)).1 = true := by
  constructor
  · show (match (runLoads initialLoadState es).pending.find?
        (fun q => q.token == tok) with
      | some _ => _
      | none => _ : LoadState × Option LoadOutcome).1.target = some tok
    rw [h]
  · show (match (runLoads initialLoadState es).pending.find?
        (fun q => q.token == tok) with
      | some _ => _
      | none => _ : LoadState × Option LoadOutcome).1.target.isSome = true
    rw [h]
    rfl

theorem staleLoadResolutionOverwrites_witness :
    (runLoads initialLoadState
        [.startLoad 0 "faceA.png", .startLoad 1 "faceB.png", .clearTarget]).pending.find?
        (fun q => q.token == 1) = some ⟨1, "faceB.png"⟩ ∧
    (loadStep (runLoads initialLoadState
        [.startLoad 0 "faceA.png", .startLoad 1 "faceB.png", .clearTarget])
        (.decodeOk 1)).1.target = some 1 :=
  ⟨by decide, (staleLoadResolutionOverwrites
    [.startLoad 0 "faceA.png", .startLoad 1 "faceB.png", .clearTarget] 1
    ⟨1, "faceB.png"⟩ (by decide)).1⟩

/-- Claim C5: when the image decode of a pending `loadTargetFace` fails, the
promise is rejected with an explicit error (`Failed to load face image:
<url>`) and `targetFaceImage` is left exactly as it was (no partial state);
when the decode succeeds, the decoded image becomes the current target and
the promise resolves. -/
theorem loadTargetFace_failure_atomic (s : LoadState) (tok : Nat)
    (p : PendingLoad)
    (h : s.pending.find? (fun q => q.token == tok) = some p) :
    (loadStep s (.decodeFail tok)).1.target = s.target ∧
    (loadStep s (.decodeFail tok)).2 =
      some (.rejected ("Failed to load face image: " ++ p.url)) ∧
    (loadStep s (.decodeOk tok)).1.target = some tok ∧
    (loadStep s (.decodeOk tok)).2 = some .resolved := by
  simp only [loadStep, h]
  exact ⟨trivial, trivial, trivial, trivial⟩

theorem loadTargetFace_failure_atomic_witness :
    (LoadState.mk (some 7) [⟨3, "x.png"⟩]).pending.find? (fun q => q.token == 3) =
      some ⟨3, "x.png"⟩ ∧
    (loadStep ⟨some 7, [⟨3, "x.png"⟩]⟩ (.decodeFail 3)).1.target = some 7 ∧
    (loadStep ⟨some 7, [⟨3, "x.png"⟩]⟩ (.decodeFail 3)).2 =
      some (.rejected ("Failed to load face image: " ++ "x.png")) :=
  ⟨by decide,
   (loadTargetFace_failure_atomic ⟨some 7, [⟨3, "x.png"⟩]⟩ 3 ⟨3, "x.png"⟩ (by decide)).1,
   (loadTargetFace_failure_atomic ⟨some 7, [⟨3, "x.png"⟩]⟩ 3 ⟨3, "x.png"⟩ (by decide)).2.1⟩

theorem getPixel_mkSurface (w h : Nat) (f : Nat → Nat → Pixel) (x y : Nat)
    (hx : x < w) (hy : y < h) : getPixel (mkSurface w h f) x y = f x y := by
  have hw : 0 < w := lt_of_le_of_lt (Nat.zero_le x) hx
  have hidx : y * w + x < w * h := by
    calc y * w + x < y * w + w := Nat.add_lt_add_left hx _
    _ = (y + 1) * w := (Nat.succ_mul y w).symm
    _ ≤ h * w := Nat.mul_le_mul_right w hy
    _ = w * h := Nat.mul_comm h w
  have hlen : y * w + x < ((List.range (w * h)).map
      (fun i => f (i % w) (i / w))).length := by
    rw [List.length_map, List.length_range]; exact hidx
  show (if x < w ∧ y < h then _ else _) = f x y
  rw [if_pos ⟨hx, hy⟩]
  show ((List.range (w * h)).map (fun i => f (i % w) (i / w))).getD
    (y * w + x) clearPixel = f x y
  rw [List.getD_eq_getElem _ _ hlen, List.getElem_map, List.getElem_range]
  have hmod : (y * w + x) % w = x := by
    rw [Nat.add_comm, Nat.add_mul_mod_self_right, Nat.mod_eq_of_lt hx]
  have hdiv : (y * w + x) / w = y := by
    rw [Nat.add_comm, Nat.add_mul_div_right x y hw, Nat.div_eq_of_lt hx,
      Nat.zero_add]
  rw [hmod, hdiv]

theorem getPixel_oob (s : Surface) (x y : Nat)
    (hxy : ¬(x < s.width ∧ y < s.height)) : getPixel s x y = clearPixel := by
  rw [getPixel, if_neg hxy]

theorem mkSurface_congr (w h : Nat) (f g : Nat → Nat → Pixel)
    (hfg : ∀ x y, x < w → y < h → f x y = g x y) :
    mkSurface w h f = mkSurface w h g := by
  show Surface.mk w h _ = Surface.mk w h _
  have : (List.range (w * h)).map (fun i => f (i % w) (i / w)) =
      (List.range (w * h)).map (fun i => g (i % w) (i / w)) := by
    apply List.map_congr_left
    intro i hi
    have hiwh : i < w * h := List.mem_range.mp hi
    have hw : 0 < w := by
      rcases Nat.eq_zero_or_pos w with h0 | h0
      · rw [h0, Nat.zero_mul] at hiwh; exact absurd hiwh (Nat.not_lt_zero i)
      · exact h0
    exact hfg _ _ (Nat.mod_lt i hw) ((Nat.div_lt_iff_lt_mul hw).mpr
      (by rw [Nat.mul_comm]; exact hiwh))
  rw [this]

theorem mkSurface_getPixel_roundtrip (w h : Nat) (f : Nat → Nat → Pixel) :
    mkSurface w h (fun x y => getPixel (mkSurface w h f) x y) = mkSurface w h f :=
  mkSurface_congr w h _ f (fun x y hx hy => getPixel_mkSurface w h f x y hx hy)

theorem over_src_transparent (src dst : Pixel) (h : src.a = 0) :
    over src dst = dst := by
  rw [over, if_pos h]

theorem overlayScratchPixel_blendZero (tgt : Surface) (box : BoundingBox)
    (w h px py : Nat) : (overlayScratchPixel 0 tgt box w h px py).a = 0 := by
  rw [overlayScratchPixel]
  split
  · exact mul_zero _
  · rfl

theorem overlayScratch_alphaZero (tgt : Surface) (box : BoundingBox)
    (w h : Nat) : AlphaZero (overlayScratch 0 tgt box w h) := by
  intro x y
  by_cases hxy : x < w ∧ y < h
  · rw [overlayScratch, getPixel_mkSurface _ _ _ _ _ hxy.1 hxy.2]
    exact overlayScratchPixel_blendZero tgt box w h x y
  · rw [getPixel_oob _ _ _ hxy]; rfl

theorem colorCorrectPixel_of_alphaZero (rAdj gAdj bAdj : ℚ) (s : Surface)
    (x y : Nat) (hs : (getPixel s x y).a = 0) :
    colorCorrectPixel rAdj gAdj bAdj s x y = getPixel s x y := by
  rw [colorCorrectPixel]
  rw [if_neg (by rw [hs]; exact lt_irrefl 0)]

theorem applyColorCorrection_alphaZero (flag : Bool) (video s : Surface)
    (w h : Nat) (hs : AlphaZero s) :
    AlphaZero (applyColorCorrection flag video s w h) := by
  simp only [applyColorCorrection]
  split
  · split
    · intro x y
      by_cases hxy : x < w ∧ y < h
      · rw [getPixel_mkSurface _ _ _ _ _ hxy.1 hxy.2,
          colorCorrectPixel_of_alphaZero _ _ _ _ _ _ (hs x y)]
        exact hs x y
      · rw [getPixel_oob _ _ _ hxy]; rfl
    · exact hs
  · exact hs

theorem featherPixel_of_alphaZero (prims : MathPrims)
    (feather cx cy featherStart : ℚ) (s : Surface) (x y : Nat)
    (hs : (getPixel s x y).a = 0) :
    featherPixel prims feather cx cy featherStart s x y = getPixel s x y := by
  rw [featherPixel]
  rw [if_neg (by rw [hs]; exact lt_irrefl 0)]

theorem applyFeathering_alphaZero (prims : MathPrims) (feather : ℚ)
    (face : FaceDetection) (w h : Nat) (s : Surface) (hs : AlphaZero s) :
    AlphaZero (applyFeathering prims feather face w h s) := by
  simp only [applyFeathering]
  split
  · exact hs
  · split
    · exact hs
    · intro x y
      by_cases hxy : x < w ∧ y < h
      · rw [getPixel_mkSurface _ _ _ _ _ hxy.1 hxy.2,
          featherPixel_of_alphaZero _ _ _ _ _ _ _ _ (hs x y)]
        exact hs x y
      · rw [getPixel_oob _ _ _ hxy]; rfl

theorem composite_of_alphaZero (s : Surface) (w h : Nat)
    (f : Nat → Nat → Pixel) (hs : AlphaZero s) :
    mkSurface w h (compositePixel s (mkSurface w h f)) = mkSurface w h f := by
  have hfun : compositePixel s (mkSurface w h f) =
      fun x y => getPixel (mkSurface w h f) x y :=
    funext fun x => funext fun y => over_src_transparent _ _ (hs x y)
  rw [hfun]
  exact mkSurface_getPixel_roundtrip w h f

/-- Claim C4: with no face geometry or no loaded target, `processFrame`
writes exactly the pass-through copy of the source frame into the output
surface (at the native dimensions of that surface); in particular a call with a
loaded target but geometry `none` is pixel-identical to the no-target
case. -/
theorem missingTargetOrGeometry_passThrough (prims : MathPrims)
    (opts : FaceSwapOptions) (flag : Bool) (video : Surface) (w h : Nat) :
    (∀ sourceFace : Option FaceDetection,
      processFrame prims opts none flag video sourceFace w h =
        passThroughCopy video w h) ∧
    (∀ tgt : Surface,
      processFrame prims opts (some tgt) flag video none w h =
        passThroughCopy video w h) ∧
    (∀ (tgt : Surface) (sourceFace : Option FaceDetection),
      processFrame prims opts (some tgt) flag video none w h =
        processFrame prims opts none flag video sourceFace w h) := by
  refine ⟨fun sf => ?_, fun tgt => rfl, fun tgt sf => ?_⟩
  · cases sf <;> rfl
  · cases sf <;> rfl

/-- Claim C9: `setOptions({blendAmount: 0})` followed by `processFrame` with
a loaded target and a face geometry produces an output surface equal to the
no-target pass-through copy of the source frame: at `globalAlpha = 0` the
scratch overlay is fully transparent, color correction and feathering leave
transparent pixels untouched, and source-over compositing of a fully
transparent surface is the identity. -/
theorem blendZero_passThrough (prims : MathPrims) (opts : FaceSwapOptions)
    (tgt : Surface) (flag : Bool) (video : Surface) (face : FaceDetection)
    (w h : Nat) :
    processFrame prims (setOptions opts ⟨some 0, none, none⟩) (some tgt) flag
      video (some face) w h = passThroughCopy video w h := by
  have h1 : AlphaZero (overlayScratch
      (setOptions opts ⟨some 0, none, none⟩).blendAmount tgt face.boundingBox w h) :=
    overlayScratch_alphaZero tgt face.boundingBox w h
  have h2 : AlphaZero (if (setOptions opts ⟨some 0, none, none⟩).colorCorrection then
      applyColorCorrection flag video (overlayScratch
        (setOptions opts ⟨some 0, none, none⟩).blendAmount tgt face.boundingBox w h) w h
    else overlayScratch
      (setOptions opts ⟨some 0, none, none⟩).blendAmount tgt face.boundingBox w h) := by
    split
    · exact applyColorCorrection_alphaZero flag video _ w h h1
    · exact h1
  have h3 : AlphaZero (applyFeathering prims
      (setOptions opts ⟨some 0, none, none⟩).featherAmount face w h
      (if (setOptions opts ⟨some 0, none, none⟩).colorCorrection then
        applyColorCorrection flag video (overlayScratch
          (setOptions opts ⟨some 0, none, none⟩).blendAmount tgt face.boundingBox w h) w h
      else overlayScratch
        (setOptions opts ⟨some 0, none, none⟩).blendAmount tgt face.boundingBox w h)) :=
    applyFeathering_alphaZero prims _ face w h _ h2
  show mkSurface w h (compositePixel _ (passThroughCopy video w h)) =
    passThroughCopy video w h
  rw [passThroughCopy]
  exact composite_of_alphaZero _ w h _ h3

/-- `featherAmount ≤ 0` (in particular `= 0`) skips feathering entirely. -/
theorem applyFeathering_nonpos (prims : MathPrims) (feather : ℚ)
    (face : FaceDetection) (w h : Nat) (s : Surface) (hf : feather ≤ 0) :
    applyFeathering prims feather face w h s = s := by
  rw [applyFeathering, if_pos hf]

/-- An empty face oval makes `applyFeathering` return the scratch surface
unchanged (early `return` on `ovalPoints.length === 0`). -/
theorem applyFeathering_empty_oval (prims : MathPrims) (feather : ℚ)
    (face : FaceDetection) (w h : Nat) (s : Surface)
    (hoval : face.faceOval = []) :
    applyFeathering prims feather face w h s = s := by
  simp [applyFeathering, hoval]

theorem colorCorrection_skip (video scratch : Surface) (w h : Nat) :
    applyColorCorrection false video scratch w h = scratch := rfl

theorem length_cropBlock (s : Surface) (w h : Nat) :
    (cropBlock s w h).length = 2500 := by
  simp only [cropBlock, List.length_map, List.length_range]

theorem foldl_add_eq_sum (l : List Pixel) (f : Pixel → ℚ) :
    l.foldl (fun acc p => acc + f p) 0 = (l.map f).sum := by
  rw [List.sum_eq_foldl, List.foldl_map]

theorem foldl_add_eq_sum_lm (l : List NormalizedLandmark)
    (f : NormalizedLandmark → ℚ) :
    l.foldl (fun acc p => acc + f p) 0 = (l.map f).sum := by
  rw [List.sum_eq_foldl, List.foldl_map]

theorem init_le_foldl_max (f : NormalizedLandmark → ℚ)
    (l : List NormalizedLandmark) (b : ℚ) :
    b ≤ l.foldl (fun m q => max m (f q)) b := by
  induction l generalizing b with
  | nil => exact le_refl b
  | cons q t ih =>
    exact le_trans (le_max_left b (f q)) (ih (max b (f q)))

theorem le_foldl_max (f : NormalizedLandmark → ℚ)
    (l : List NormalizedLandmark) (b : ℚ) :
    ∀ p ∈ l, f p ≤ l.foldl (fun m q => max m (f q)) b := by
  induction l generalizing b with
  | nil => intro p hp; exact absurd hp (List.not_mem_nil p)
  | cons q t ih =>
    intro p hp
    rcases List.mem_cons.mp hp with rfl | hpt
    · exact le_trans (le_max_right b (f p)) (init_le_foldl_max f t (max b (f p)))
    · exact ih (max b (f q)) p hpt

/-- Claim C2 (amended): a geometry whose `faceOval` is empty is *not*
treated as "no face": `processFrame` still draws the clipped target overlay
and composites it; only the feathering step is skipped (it returns early on
an empty oval), so the call behaves exactly like the same call with
`featherAmount = 0`, and the output is in general not the pass-through
copy. -/
theorem emptyFaceOval_skips_only_feathering (prims : MathPrims)
    (opts : FaceSwapOptions) (tgt : Surface) (flag : Bool) (video : Surface)
    (face : FaceDetection) (w h : Nat) (hoval : face.faceOval = []) :
    processFrame prims opts (some tgt) flag video (some face) w h =
      processFrame prims ⟨opts.blendAmount, 0, opts.colorCorrection⟩ (some tgt)
        flag video (some face) w h := by
  simp only [processFrame]
  rw [applyFeathering_empty_oval prims opts.featherAmount face w h _ hoval,
    applyFeathering_nonpos prims 0 face w h _ (le_refl 0)]

theorem emptyFaceOval_skips_only_feathering_witness :
    faceCx.faceOval = [] ∧
    processFrame prims0 ⟨1, 20, false⟩ (some target0) true video0 (some faceCx) 2 2 =
      processFrame prims0 ⟨1, 0, false⟩ (some target0) true video0 (some faceCx) 2 2 :=
  ⟨rfl, emptyFaceOval_skips_only_feathering prims0 ⟨1, 20, false⟩ target0 true
    video0 faceCx 2 2 rfl⟩

/-- Claim C2 counterexample: a `processFrame` call with a loaded target and
a supplied geometry whose derived views are all empty (in particular an
empty `faceOval`) does *not* produce the pass-through copy of the source
frame: with a red 1×1 target, a black 1×1 video, `blendAmount = 1` and the
generator-style full-frame bounding box, the output pixel at (1,1) of the
2×2 surface is red, not the source black. -/
theorem emptyFaceOval_not_passThrough :
    processFrame prims0 ⟨1, 20, false⟩ (some target0) true video0 (some faceCx) 2 2 ≠
      passThroughCopy video0 2 2 := by
  have hbase : getPixel (passThroughCopy video0 2 2) 1 1 = ⟨0, 0, 0, 255⟩ := by
    rw [passThroughCopy, getPixel_mkSurface 2 2 _ 1 1 (by decide) (by decide),
      passThroughPixel]
    norm_num [video0, getPixel]
  have hscratch : getPixel (overlayScratch 1 target0 box0 2 2) 1 1 =
      ⟨255, 0, 0, 255⟩ := by
    rw [overlayScratch, getPixel_mkSurface 2 2 _ 1 1 (by decide) (by decide),
      overlayScratchPixel]
    norm_num [overlayDrawRect, box0, target0, getPixel, Nat.zero_min]
  have hL : getPixel (processFrame prims0 ⟨1, 20, false⟩ (some target0) true
      video0 (some faceCx) 2 2) 1 1 = ⟨255, 0, 0, 255⟩ := by
    show getPixel (mkSurface 2 2 (compositePixel
      (applyFeathering prims0 20 faceCx 2 2 (overlayScratch 1 target0 box0 2 2))
      (passThroughCopy video0 2 2))) 1 1 = ⟨255, 0, 0, 255⟩
    rw [applyFeathering_empty_oval prims0 20 faceCx 2 2 _ rfl,
      getPixel_mkSurface 2 2 _ 1 1 (by decide) (by decide), compositePixel,
      hscratch, hbase, over]
    norm_num
  intro hEq
  rw [hEq, hbase] at hL
  have := congrArg Pixel.r hL
  norm_num at this

theorem feather_linear (m d f : ℚ) (hf : f ≠ 0) :
    1 - (d - (m - f)) / f = (m - d) / f := by
  field_simp
  ring

theorem ovalCentroidX_eq_spec (oval : List NormalizedLandmark) (w : Nat) :
    ovalCentroidX oval w = specOvalCx oval w := by
  rw [ovalCentroidX, specOvalCx, foldl_add_eq_sum_lm]

theorem ovalCentroidY_eq_spec (oval : List NormalizedLandmark) (h : Nat) :
    ovalCentroidY oval h = specOvalCy oval h := by
  rw [ovalCentroidY, specOvalCy, foldl_add_eq_sum_lm]

/-- Claim C7: in the feathering step, with the centroid equal to the mean of
the face-outline landmark points in pixel space and `maxDist` an upper bound
attained by the fold over all outline-point distances, every scratch pixel
with positive alpha whose distance from the centroid exceeds
`maxDist - featherAmount` has its alpha scaled linearly — factor
`(maxDist - dist) / featherAmount`, i.e. full at the threshold, zero at
`maxDist`, floored at 0 — and clamped to `[0, 255]`; pixels at distance ≤
the threshold (or with alpha ≤ 0) keep their alpha; `featherAmount = 0`
skips the entire step, modifying no pixel. -/
theorem applyFeathering_spec (prims : MathPrims) (feather : ℚ)
    (face : FaceDetection) (w h : Nat) (s : Surface) :
    (feather = 0 → applyFeathering prims feather face w h s = s) ∧
    (∀ p ∈ face.faceOval,
      prims.sqrt ((p.x * (w : ℚ) - specOvalCx face.faceOval w) *
          (p.x * (w : ℚ) - specOvalCx face.faceOval w) +
        (p.y * (h : ℚ) - specOvalCy face.faceOval h) *
          (p.y * (h : ℚ) - specOvalCy face.faceOval h)) ≤
        ovalMaxDist prims face.faceOval w h (specOvalCx face.faceOval w)
          (specOvalCy face.faceOval h)) ∧
    (0 < feather → face.faceOval ≠ [] → ∀ x y, x < w → y < h →
      getPixel (applyFeathering prims feather face w h s) x y =
        specFeatheredPixel prims feather face.faceOval w h s x y) := by
  refine ⟨fun hf => applyFeathering_nonpos prims feather face w h s (le_of_eq hf),
    fun p hp => ?_, fun hf hoval x y hx hy => ?_⟩
  · exact le_foldl_max _ face.faceOval 0 p hp
  · have hfne : feather ≠ 0 := ne_of_gt hf
    have hle : ¬ feather ≤ 0 := not_le.mpr hf
    have hlen0 : ¬ face.faceOval.length = 0 := fun h0 =>
      hoval (List.length_eq_zero.mp h0)
    simp only [applyFeathering, if_neg hle, if_neg hlen0]
    rw [getPixel_mkSurface _ _ _ _ _ hx hy]
    simp only [featherPixel, specFeatheredPixel, ovalCentroidX_eq_spec,
      ovalCentroidY_eq_spec]
    by_cases hpa : 0 < (getPixel s x y).a
    · by_cases hdist : ovalMaxDist prims face.faceOval w h
          (specOvalCx face.faceOval w) (specOvalCy face.faceOval h) - feather <
          prims.sqrt (((x : ℚ) - specOvalCx face.faceOval w) *
            ((x : ℚ) - specOvalCx face.faceOval w) +
            ((y : ℚ) - specOvalCy face.faceOval h) *
            ((y : ℚ) - specOvalCy face.faceOval h))
      · rw [if_pos hpa, if_pos hdist, if_pos ⟨hpa, hdist⟩, feather_linear _ _ _ hfne]
      · rw [if_pos hpa, if_neg hdist, if_neg (fun hc => hdist hc.2)]
    · rw [if_neg hpa, if_neg (fun hc => hpa hc.1)]

theorem applyFeathering_spec_witness :
    (0 : ℚ) < 1 ∧ faceF.faceOval ≠ [] ∧ (0 : ℕ) < 1 ∧
    getPixel (applyFeathering prims0 1 faceF 1 1 surfF) 0 0 =
      specFeatheredPixel prims0 1 faceF.faceOval 1 1 surfF 0 0 :=
  ⟨by norm_num, by decide, by decide,
   (applyFeathering_spec prims0 1 faceF 1 1 surfF).2.2 (by norm_num) (by decide)
     0 0 (by decide) (by decide)⟩

/-- Claim C8: with `colorCorrection` enabled the compositor samples the fixed
50×50 block centered in the full frame (2500 samples) from both the re-drawn
source frame and the scratch surface, forms per-channel mean ratios
source/scratch with a zero denominator treated as 1, clamps them to
`[0.5, 1.5]`, and scales the channels of every non-transparent scratch pixel,
capping each at 255, in a single pass; if pixel read-back fails, only the
color-correction step is skipped (the scratch is left uncorrected) and the
rest of the composite — run with a failing read-back — equals the same
composite with `colorCorrection` disabled. -/
theorem applyColorCorrection_spec (video scratch : Surface) (w h : Nat) :
    applyColorCorrection false video scratch w h = scratch ∧
    (cropBlock (passThroughCopy video w h) w h).length = 2500 ∧
    (cropBlock scratch w h).length = 2500 ∧
    (∀ x y, x < w → y < h →
      getPixel (applyColorCorrection true video scratch w h) x y =
        specColorCorrectedPixel video scratch w h x y) ∧
    (∀ (prims : MathPrims) (opts : FaceSwapOptions) (tgt : Surface)
        (face : FaceDetection), opts.colorCorrection = true →
      processFrame prims opts (some tgt) false video (some face) w h =
        processFrame prims ⟨opts.blendAmount, opts.featherAmount, false⟩
          (some tgt) true video (some face) w h) := by
  refine ⟨rfl, length_cropBlock _ w h, length_cropBlock _ w h,
    fun x y hx hy => ?_, fun prims opts tgt face hcc => ?_⟩
  · simp only [applyColorCorrection, if_true, length_cropBlock, Nat.cast_ofNat]
    rw [if_pos (show (0 : ℚ) < 2500 by norm_num)]
    rw [getPixel_mkSurface _ _ _ _ _ hx hy]
    simp only [colorCorrectPixel, specColorCorrectedPixel, foldl_add_eq_sum,
      length_cropBlock, Nat.cast_ofNat]
  · simp only [processFrame, hcc, if_true, colorCorrection_skip,
      Bool.false_eq_true, if_false]

theorem applyColorCorrection_spec_witness :
    (0 : ℕ) < 1 ∧
    (FaceSwapOptions.mk 1 20 true).colorCorrection = true ∧
    getPixel (applyColorCorrection true video0 target0 1 1) 0 0 =
      specColorCorrectedPixel video0 target0 1 1 0 0 ∧
    processFrame prims0 ⟨1, 20, true⟩ (some target0) false video0 (some faceF) 1 1 =
      processFrame prims0 ⟨1, 20, false⟩ (some target0) true video0 (some faceF) 1 1 :=
  ⟨by decide, rfl,
   (applyColorCorrection_spec video0 target0 1 1).2.2.2.1 0 0 (by decide) (by decide),
   (applyColorCorrection_spec video0 target0 1 1).2.2.2.2 prims0 ⟨1, 20, true⟩
     target0 faceF rfl⟩
